import Mathlib

/-!
A verification of the Fuchsia device bind-bytecode core: the V2
decode-and-evaluate engine (`src/devices/lib/bind/src/match_bind.rs`) and the
V1 fixed-width instruction encoder
(`src/devices/bind/debugger/src/encode_bind_program_v1.rs`).

Rust enums become inductive types, `HashMap`s become association lists with
first-match lookup, machine integers become `Nat` with explicit truncation
where the code truncates, and fallible code returns `Except` (with a
dedicated constructor for a Rust panic where the code can panic).
-/

namespace DeviceBind

/-! ## Value and property model (match_bind.rs and its collaborators) -/

/-- Modelled from the spec: `bind_library::ValueType` (the bind_library
module is not among the sources); the declared-type hint carried by a `Key`
value. Variants per spec section 3: number, string, boolean, enum. -/
inductive ValueType where
  | number
  | str
  | bool
  | enum
deriving DecidableEq

/-- Modelled from the spec: `compiler::Symbol` (compiler.rs is not among the
sources), the tagged value union of spec section 3: `Number(u64)`,
`Str(String)`, `Bool(bool)`, `Key(String, declared-type-hint)`, `Enum`
(opaque marker, no payload). The constructor names follow the Rust variants
used by match_bind.rs: `NumberValue`, `StringValue`, `BoolValue`, `Key`,
`EnumValue`. -/
inductive Symbol where
  | numberValue (n : Nat)
  | stringValue (s : String)
  | boolValue (b : Bool)
  | key (s : String) (hint : ValueType)
  | enumValue
deriving DecidableEq

/-- `PropertyKey` from match_bind.rs lines 24-27. -/
inductive PropertyKey where
  | numberKey (n : Nat)
  | stringKey (s : String)
deriving DecidableEq

/-- Modelled from the spec: `BytecodeError` (bytecode_common.rs is not among
the sources); the error kinds and payloads are exactly those of spec
section 7. -/
inductive BytecodeError where
  | invalidOp (b : Nat)
  | invalidValueType (b : Nat)
  | invalidBoolValue (v : Nat)
  | missingEntryInSymbolTable (idx : Nat)
  | mismatchValueTypes
  | unexpectedEnd
deriving DecidableEq

/-- `Condition` from match_bind.rs lines 15-18 (`Equal` / `Inequal`). -/
inductive Condition where
  | equal
  | inequal
deriving DecidableEq

/-- Modelled from the spec: the V2 opcode enumeration `RawOp`
(bind_program_v2_constants is not among the sources). `EqualCondition =
0x01`, `InequalCondition = 0x02` and `Abort = 0x30` are fixed by spec
sections 4.2 and 6; the recognized-but-skipped jump opcodes (spec sections
4.2 and 9) are given placeholder byte values 0x10-0x12 and 0x20. No claim
depends on the jump opcode values. -/
inductive RawOp where
  | equalCondition
  | inequalCondition
  | unconditionalJump
  | jumpIfEqual
  | jumpIfNotEqual
  | jumpLandPad
  | abort
deriving DecidableEq

/-- `FromPrimitive::from_u8` for `RawOp` (match_bind.rs line 49). -/
def RawOp.fromU8 : Nat → Option RawOp
  | 0x01 => some .equalCondition
  | 0x02 => some .inequalCondition
  | 0x10 => some .unconditionalJump
  | 0x11 => some .jumpIfEqual
  | 0x12 => some .jumpIfNotEqual
  | 0x20 => some .jumpLandPad
  | 0x30 => some .abort
  | _ => none

/-- Modelled from the spec: the V2 operand type tags `RawValueType`
(bind_program_v2_constants is not among the sources), in declaration order
`Key`, `NumberValue`, `StringValue`, `BoolValue`, `EnumValue` starting at 0
(the match_bind.rs unit test `invalid_value_type` pins 0x05 as an
unrecognized tag). No claim depends on the particular tag bytes. -/
inductive RawValueType where
  | key
  | numberValue
  | stringValue
  | boolValue
  | enumValue
deriving DecidableEq

/-- `FromPrimitive::from_u8` for `RawValueType` (match_bind.rs line 101). -/
def RawValueType.fromU8 : Nat → Option RawValueType
  | 0 => some .key
  | 1 => some .numberValue
  | 2 => some .stringValue
  | 3 => some .boolValue
  | 4 => some .enumValue
  | _ => none

/-- The byte emitted for a `RawValueType` tag (`value_type as u8` in the
match_bind.rs tests). -/
def RawValueType.toU8 : RawValueType → Nat
  | .key => 0
  | .numberValue => 1
  | .stringValue => 2
  | .boolValue => 3
  | .enumValue => 4

/-- `HashMap<u32, String>`: the symbol table as an association list. -/
abbrev SymbolTable := List (Nat × String)

/-- `DeviceProperties = HashMap<PropertyKey, Symbol>` as an association
list. -/
abbrev DeviceProperties := List (PropertyKey × Symbol)

/-- First-match association-list lookup, the model of `HashMap::get`. -/
def assocLookup {α β : Type} [DecidableEq α] : List (α × β) → α → Option β
  | [], _ => none
  | (k, v) :: rest, target => if k = target then some v else assocLookup rest target

/-- The outcome of one match run: `Ok`, `Err`, or a Rust panic (the
`unimplemented!` path in `read_and_evaluate_values` returns no value). -/
inductive EvalResult (α : Type) where
  | ok (a : α)
  | err (e : BytecodeError)
  | panicked
deriving DecidableEq

/-- True exactly on the `panicked` outcome. -/
def EvalResult.isPanic {α : Type} : EvalResult α → Bool
  | .panicked => true
  | _ => false

/-- True exactly on an `err` outcome. -/
def EvalResult.isError {α : Type} : EvalResult α → Bool
  | .err _ => true
  | _ => false

/-! ## The V2 byte-stream readers -/

/-- Modelled from the spec: `bytecode_common::next_u8` (bytecode_common.rs is
not among the sources): take the next byte, `UnexpectedEnd` on a truncated
stream (spec section 4.2). -/
def next_u8 : List Nat → Except BytecodeError (Nat × List Nat)
  | [] => .error .unexpectedEnd
  | b :: rest => .ok (b, rest)

/-- Modelled from the spec: `bytecode_common::next_u32` (bytecode_common.rs
is not among the sources): four bytes, little-endian (spec sections 4.2 and
6), `UnexpectedEnd` on a truncated stream. -/
def next_u32 : List Nat → Except BytecodeError (Nat × List Nat)
  | b0 :: b1 :: b2 :: b3 :: rest =>
      .ok (b0 + 0x100 * b1 + 0x10000 * b2 + 0x1000000 * b3, rest)
  | _ => .error .unexpectedEnd

/-- `DeviceMatcher::lookup_symbol_table` (match_bind.rs lines 122-127). -/
def lookup_symbol_table (symbol_table : SymbolTable) (key : Nat) :
    Except BytecodeError String :=
  match assocLookup symbol_table key with
  | none => .error (.missingEntryInSymbolTable key)
  | some v => .ok v

/-- The value-materialization match of `DeviceMatcher::read_next_value`
(match_bind.rs lines 105-119), factored over the already-read
`(value_type, value)` pair. -/
def decodeValue (symbol_table : SymbolTable) (t : RawValueType) (value : Nat) :
    Except BytecodeError Symbol :=
  match t with
  | .numberValue => .ok (.numberValue value)
  | .key =>
      match lookup_symbol_table symbol_table value with
      | .error e => .error e
      | .ok s => .ok (.key s ValueType.str)
  | .stringValue =>
      match lookup_symbol_table symbol_table value with
      | .error e => .error e
      | .ok s => .ok (.stringValue s)
  | .boolValue =>
      if value = 0x0 then .ok (.boolValue false)
      else if value = 0x1 then .ok (.boolValue true)
      else .error (.invalidBoolValue value)
  | .enumValue => .ok .enumValue

/-- `DeviceMatcher::read_next_value` (match_bind.rs lines 99-120): the next
u8 is the value type, the next u32 the value, converted into a `Symbol`. -/
def read_next_value (symbol_table : SymbolTable) (iter : List Nat) :
    Except BytecodeError (Symbol × List Nat) :=
  match next_u8 iter with
  | .error e => .error e
  | .ok (value_type, iter) =>
    match RawValueType.fromU8 value_type with
    | none => .error (.invalidValueType value_type)
    | some t =>
      match next_u32 iter with
      | .error e => .error e
      | .ok (value, iter) =>
        match decodeValue symbol_table t value with
        | .error e => .error e
        | .ok s => .ok (s, iter)

/-- The property-key projection inside `read_and_evaluate_values`
(match_bind.rs lines 81-88); `none` stands for the `unimplemented!` panic on
any other materialized type. -/
def propertyKeyOf : Symbol → Option PropertyKey
  | .numberValue key => some (.numberKey key)
  | .stringValue key => some (.stringKey key)
  | .key key _ => some (.stringKey key)
  | _ => none

/-- Modelled from the spec: structural equality on `Symbol` (the derived
`PartialEq` of `compiler::Symbol`; compiler.rs is not among the sources).
Values compare by identical tag and payload; for `Key` values "only the
resolved string participates in comparison" (spec section 4.2), so the
declared-type hint is ignored. -/
def symbolEq : Symbol → Symbol → Bool
  | .numberValue a, .numberValue b => a == b
  | .stringValue a, .stringValue b => a == b
  | .boolValue a, .boolValue b => a == b
  | .key a _, .key b _ => a == b
  | .enumValue, .enumValue => true
  | _, _ => false

/-- `std::mem::discriminant` equality on `Symbol` (match_bind.rs line
135). -/
def sameDiscriminant : Symbol → Symbol → Bool
  | .numberValue _, .numberValue _ => true
  | .stringValue _, .stringValue _ => true
  | .boolValue _, .boolValue _ => true
  | .key _ _, .key _ _ => true
  | .enumValue, .enumValue => true
  | _, _ => false

/-- `compare_symbols` (match_bind.rs lines 130-143). -/
def compare_symbols (condition : Condition) (lhs rhs : Symbol) :
    Except BytecodeError Bool :=
  if sameDiscriminant lhs rhs = false then .error .mismatchValueTypes
  else .ok (match condition with
    | .equal => symbolEq lhs rhs
    | .inequal => !(symbolEq lhs rhs))

/-- `DeviceMatcher::read_and_evaluate_values` (match_bind.rs lines 80-95):
read the property key (panicking on an unsupported key type), read the
comparison value, then consult the device property table. -/
def read_and_evaluate_values (symbol_table : SymbolTable)
    (properties : DeviceProperties) (condition : Condition)
    (iter : List Nat) : EvalResult (Bool × List Nat) :=
  match read_next_value symbol_table iter with
  | .error e => .err e
  | .ok (keySymbol, iter) =>
    match propertyKeyOf keySymbol with
    | none => .panicked
    | some property_key =>
      match read_next_value symbol_table iter with
      | .error e => .err e
      | .ok (bind_value, iter) =>
        match assocLookup properties property_key with
        | none => .ok (decide (condition = .inequal), iter)
        | some device_value =>
          match compare_symbols condition device_value bind_value with
          | .error e => .err e
          | .ok res => .ok (res, iter)

/-! Consumption bounds for the readers, needed for the termination of the
main evaluation loop. -/

theorem next_u8_length {l l' : List Nat} {b : Nat}
    (h : next_u8 l = .ok (b, l')) : l'.length < l.length := by
  cases l with
  | nil => simp [next_u8] at h
  | cons x xs =>
      simp only [next_u8, Except.ok.injEq, Prod.mk.injEq] at h
      obtain ⟨-, rfl⟩ := h
      simp

theorem next_u32_length {l l' : List Nat} {v : Nat}
    (h : next_u32 l = .ok (v, l')) : l'.length ≤ l.length := by
  unfold next_u32 at h
  split at h
  · simp only [Except.ok.injEq, Prod.mk.injEq] at h
    obtain ⟨-, rfl⟩ := h
    simp only [List.length_cons]
    omega
  · simp at h

theorem read_next_value_length {st : SymbolTable} {iter iter' : List Nat}
    {s : Symbol} (h : read_next_value st iter = .ok (s, iter')) :
    iter'.length < iter.length := by
  unfold read_next_value at h
  split at h
  · simp at h
  · rename_i value_type it1 heq8
    split at h
    · simp at h
    · split at h
      · simp at h
      · rename_i value it2 heq32
        split at h
        · simp at h
        · simp only [Except.ok.injEq, Prod.mk.injEq] at h
          obtain ⟨-, rfl⟩ := h
          exact Nat.lt_of_le_of_lt (next_u32_length heq32) (next_u8_length heq8)

theorem read_and_evaluate_values_length {st : SymbolTable}
    {props : DeviceProperties} {c : Condition} {iter iter' : List Nat}
    {b : Bool} (h : read_and_evaluate_values st props c iter = .ok (b, iter')) :
    iter'.length < iter.length := by
  unfold read_and_evaluate_values at h
  split at h
  · simp at h
  · rename_i keySymbol it1 heq1
    split at h
    · simp at h
    · split at h
      · simp at h
      · rename_i bind_value it2 heq2
        have hlen : it2.length < iter.length :=
          Nat.lt_trans (read_next_value_length heq2) (read_next_value_length heq1)
        split at h
        · simp only [EvalResult.ok.injEq, Prod.mk.injEq] at h
          obtain ⟨-, rfl⟩ := h
          exact hlen
        · split at h
          · simp at h
          · simp only [EvalResult.ok.injEq, Prod.mk.injEq] at h
            obtain ⟨-, rfl⟩ := h
            exact hlen

/-- `DeviceMatcher::match_bind` (match_bind.rs lines 46-64): consume opcodes
sequentially; a failed condition or an abort returns `Ok(false)`, an
unrecognized opcode is `InvalidOp`, every other recognized opcode is
skipped, and exhausting the stream returns `Ok(true)`. -/
def match_bind (symbol_table : SymbolTable) (properties : DeviceProperties)
    (iter : List Nat) : EvalResult Bool :=
  match iter with
  | [] => .ok true
  | byte :: rest =>
    match RawOp.fromU8 byte with
    | none => .err (.invalidOp byte)
    | some .equalCondition =>
        match h : read_and_evaluate_values symbol_table properties .equal rest with
        | .ok (true, iter') => match_bind symbol_table properties iter'
        | .ok (false, _) => .ok false
        | .err e => .err e
        | .panicked => .panicked
    | some .inequalCondition =>
        match h : read_and_evaluate_values symbol_table properties .inequal rest with
        | .ok (true, iter') => match_bind symbol_table properties iter'
        | .ok (false, _) => .ok false
        | .err e => .err e
        | .panicked => .panicked
    | some .abort => .ok false
    | some _ => match_bind symbol_table properties rest
termination_by iter.length
decreasing_by
  · exact Nat.lt_trans (read_and_evaluate_values_length h) (by simp)
  · exact Nat.lt_trans (read_and_evaluate_values_length h) (by simp)
  · simp

/-- `DecodedProgram` (decoded_bind_program.rs is not among the sources; the
structure's two fields are constructed literally throughout the
match_bind.rs tests). -/
structure DecodedProgram where
  symbol_table : SymbolTable
  instructions : List Nat

/-- `DeviceMatcher::new` followed by `match_bind` (match_bind.rs lines
38-44, 146-151): `match_bytecode` minus the blob parsing done by
`DecodedProgram::new`, which is outside the sources. -/
def matchDecodedProgram (bind_rules : DecodedProgram)
    (properties : DeviceProperties) : EvalResult Bool :=
  match_bind bind_rules.symbol_table properties bind_rules.instructions

/-! ## The V1 codec (encode_bind_program_v1.rs) -/

/-- Bit-range extraction over the 96-bit record: the generated getter of the
Rust `bitfield!` macro for the range `[lo, lo + width)` of the little-endian
concatenation of the three words. The semantics are pinned by the
`test_raw_instruction` unit test of encode_bind_program_v1.rs. -/
def getBits (x lo width : Nat) : Nat :=
  x / 2 ^ lo % 2 ^ width

/-- Bit-range update over the 96-bit record: the generated setter of the
Rust `bitfield!` macro for the range `[lo, lo + width)`: the stored value is
truncated to `width` bits and replaces the previous content of the range. -/
def setBits (x lo width v : Nat) : Nat :=
  x % 2 ^ lo + 2 ^ (lo + width) * (x / 2 ^ (lo + width)) + 2 ^ lo * (v % 2 ^ width)

namespace V1

/-- `RawOp` of encode_bind_program_v1.rs lines 15-21 (the legacy native
ABI values: `Abort = 0`, `Match = 1`, `Goto = 2`, `Label = 5`). -/
inductive RawOp where
  | abort
  | matchInst
  | goto
  | label
deriving DecidableEq

/-- `RawOp as u32`. -/
def RawOp.toU32 : RawOp → Nat
  | .abort => 0
  | .matchInst => 1
  | .goto => 2
  | .label => 5

/-- `RawCondition` of encode_bind_program_v1.rs lines 24-29
(`Always = 0`, `Equal = 1`, `NotEqual = 2`). -/
inductive RawCondition where
  | always
  | equal
  | notEqual
deriving DecidableEq

/-- `RawCondition as u32`. -/
def RawCondition.toU32 : RawCondition → Nat
  | .always => 0
  | .equal => 1
  | .notEqual => 2

/-- `RawInstruction([u32; 3])` of encode_bind_program_v1.rs lines 31-53: the
96-bit record carried as one natural number below `2^96` (the three
little-endian 32-bit words concatenated low-to-high). -/
structure RawInstruction where
  bits : Nat
deriving DecidableEq

/-- Word `i` of the record (`RawInstruction.0[i]`). -/
def RawInstruction.word (r : RawInstruction) (i : Nat) : Nat :=
  getBits r.bits (32 * i) 32

/-- Getter `condition: 31, 28`. -/
def RawInstruction.condition (r : RawInstruction) : Nat := getBits r.bits 28 4

/-- Getter `operation: 27, 24`. -/
def RawInstruction.operation (r : RawInstruction) : Nat := getBits r.bits 24 4

/-- Getter `parameter_a: 23, 16`. -/
def RawInstruction.parameter_a (r : RawInstruction) : Nat := getBits r.bits 16 8

/-- Getter `parameter_b: 15, 0`. -/
def RawInstruction.parameter_b (r : RawInstruction) : Nat := getBits r.bits 0 16

/-- Getter `value: 63, 32`. -/
def RawInstruction.value (r : RawInstruction) : Nat := getBits r.bits 32 32

/-- Getter `line: 95, 88`. -/
def RawInstruction.line (r : RawInstruction) : Nat := getBits r.bits 88 8

/-- Getter `ast_location: 87, 80`. -/
def RawInstruction.ast_location (r : RawInstruction) : Nat := getBits r.bits 80 8

/-- Getter `extra: 79, 64`. -/
def RawInstruction.extra (r : RawInstruction) : Nat := getBits r.bits 64 16

/-- Setter `set_condition`. -/
def RawInstruction.set_condition (r : RawInstruction) (v : Nat) : RawInstruction :=
  ⟨setBits r.bits 28 4 v⟩

/-- Setter `set_operation`. -/
def RawInstruction.set_operation (r : RawInstruction) (v : Nat) : RawInstruction :=
  ⟨setBits r.bits 24 4 v⟩

/-- Setter `set_parameter_a`. -/
def RawInstruction.set_parameter_a (r : RawInstruction) (v : Nat) : RawInstruction :=
  ⟨setBits r.bits 16 8 v⟩

/-- Setter `set_parameter_b`. -/
def RawInstruction.set_parameter_b (r : RawInstruction) (v : Nat) : RawInstruction :=
  ⟨setBits r.bits 0 16 v⟩

/-- Setter `set_value`. -/
def RawInstruction.set_value (r : RawInstruction) (v : Nat) : RawInstruction :=
  ⟨setBits r.bits 32 32 v⟩

/-- Setter `set_line`. -/
def RawInstruction.set_line (r : RawInstruction) (v : Nat) : RawInstruction :=
  ⟨setBits r.bits 88 8 v⟩

/-- Setter `set_ast_location`. -/
def RawInstruction.set_ast_location (r : RawInstruction) (v : Nat) : RawInstruction :=
  ⟨setBits r.bits 80 8 v⟩

/-- Setter `set_extra`. -/
def RawInstruction.set_extra (r : RawInstruction) (v : Nat) : RawInstruction :=
  ⟨setBits r.bits 64 16 v⟩

/-- `instruction::Condition` (instruction.rs is not among the sources, but
the payload types are fixed by encode_bind_program_v1.rs: `encode_condition`
returns the `u32` pair unchanged). Per spec section 3: `Always`,
`Equal(key, value)`, `NotEqual(key, value)`. -/
inductive Condition where
  | always
  | equal (b : Nat) (v : Nat)
  | notEqual (b : Nat) (v : Nat)
deriving DecidableEq

/-- `instruction::Instruction` (instruction.rs is not among the sources; the
variants and payloads are fixed by the `From<Instruction>` impl of
encode_bind_program_v1.rs lines 69-95). Per spec section 3:
`Abort(Condition)`, `Match(Condition)`, `Goto(Condition, target_label)`,
`Label(id)`. -/
inductive Instruction where
  | abort (cond : Condition)
  | matchInst (cond : Condition)
  | goto (cond : Condition) (a : Nat)
  | label (a : Nat)
deriving DecidableEq

/-- Modelled from the spec: the debug metadata of `InstructionInfo`
(instruction.rs is not among the sources): source line, AST-location tag
(the `RawAstLocation` enum cast `as u32`), and the auxiliary "extra" field
(spec section 3). -/
structure DebugInfo where
  line : Nat
  astLocation : Nat
  extra : Nat
deriving DecidableEq

/-- Modelled from the spec: `InstructionInfo` pairs an `Instruction` with
debug metadata (spec section 3; encode_bind_program_v1.rs lines 105-111 use
exactly the fields modelled here). -/
structure InstructionInfo where
  instruction : Instruction
  debug : DebugInfo
deriving DecidableEq

/-- `encode_condition` (encode_bind_program_v1.rs lines 97-103). -/
def encode_condition : Condition → Nat × Nat × Nat
  | .always => (RawCondition.always.toU32, 0, 0)
  | .equal b v => (RawCondition.equal.toU32, b, v)
  | .notEqual b v => (RawCondition.notEqual.toU32, b, v)

/-- The setter sequence at the end of the `From<Instruction>` impl
(encode_bind_program_v1.rs lines 87-93), starting from `RawInstruction([0,
0, 0])`. -/
def mkRaw (c o a b v : Nat) : RawInstruction :=
  (((((RawInstruction.mk 0).set_condition c).set_operation o).set_parameter_a
      a).set_parameter_b b).set_value v

/-- `From<Instruction> for RawInstruction` (encode_bind_program_v1.rs lines
69-95). -/
def instructionToRaw (instruction : Instruction) : RawInstruction :=
  match instruction with
  | .abort condition =>
      match encode_condition condition with
      | (c, b, v) => mkRaw c RawOp.abort.toU32 0 b v
  | .matchInst condition =>
      match encode_condition condition with
      | (c, b, v) => mkRaw c RawOp.matchInst.toU32 0 b v
  | .goto condition a =>
      match encode_condition condition with
      | (c, b, v) => mkRaw c RawOp.goto.toU32 a b v
  | .label a => mkRaw RawCondition.always.toU32 RawOp.label.toU32 a 0 0

/-- `encode_instruction` (encode_bind_program_v1.rs lines 105-111): the
instruction record with the debug fields set on top. -/
def encode_instruction (info : InstructionInfo) : RawInstruction :=
  (((instructionToRaw info.instruction).set_line
      info.debug.line).set_ast_location info.debug.astLocation).set_extra
    info.debug.extra

/-- Reading the condition field of a V1 record back into an abstract
condition, following claim C3's words: condition code 0/1/2 is
Always/Equal/NotEqual, with the key from the operand-B field and the value
from the Value field. -/
def readBackCondition (r : RawInstruction) : Option Condition :=
  match r.condition with
  | 0 => some .always
  | 1 => some (.equal r.parameter_b r.value)
  | 2 => some (.notEqual r.parameter_b r.value)
  | _ => none

/-- Reading the condition-code, operation-code, operand-A, operand-B and
Value fields of a V1 record back into an abstract instruction, following
claim C3's words (operation code 0/1/2/5 is Abort/Match/Goto/Label, with
operand A the Goto/Label target). -/
def readBackInstruction (r : RawInstruction) : Option Instruction :=
  match r.operation with
  | 0 => (readBackCondition r).map Instruction.abort
  | 1 => (readBackCondition r).map Instruction.matchInst
  | 2 => (readBackCondition r).map (fun c => Instruction.goto c r.parameter_a)
  | 5 => some (Instruction.label r.parameter_a)
  | _ => none

/-- The payloads of a condition fit the V1 bit fields they are packed into:
the key in 16 bits (operand B) and the value in 32 bits (Value). -/
def condWf : Condition → Bool
  | .always => true
  | .equal b v => decide (b < 2 ^ 16) && decide (v < 2 ^ 32)
  | .notEqual b v => decide (b < 2 ^ 16) && decide (v < 2 ^ 32)

/-- The payloads of an instruction fit the V1 bit fields they are packed
into: condition payloads per `condWf`, and the Goto/Label target in 8 bits
(operand A). -/
def instrWf : Instruction → Bool
  | .abort c => condWf c
  | .matchInst c => condWf c
  | .goto c a => condWf c && decide (a < 2 ^ 8)
  | .label a => decide (a < 2 ^ 8)

end V1

/-! ## V2 instruction encoding (the byte shapes of spec sections 4.2 and 6,
as the match_bind.rs test helpers build them) -/

/-- A V2 condition operand before encoding: a value-type tag and a `u32`
payload (spec section 4.2; the `EncodedValue` test helper of
match_bind.rs). -/
structure Operand where
  tag : RawValueType
  value : Nat
deriving DecidableEq

/-- The four little-endian bytes of a `u32` (`u32::to_le_bytes`). -/
def u32LE (v : Nat) : List Nat :=
  [v % 256, v / 256 % 256, v / 65536 % 256, v / 16777216 % 256]

/-- `[value_type: u8][value: u32 LE]` (spec section 4.2; the
`append_encoded_value` test helper of match_bind.rs). -/
def encodeOperand (o : Operand) : List Nat :=
  o.tag.toU8 :: u32LE o.value

/-- The opcode byte of a condition (spec sections 4.2 and 6:
`EqualCondition = 0x01`, `InequalCondition = 0x02`; the
`append_equal_cond` / `append_inequal_cond` test helpers). -/
def condOpByte : Condition → Nat
  | .equal => 0x01
  | .inequal => 0x02

/-- A whole encoded condition instruction: the opcode byte, the
property-key operand, then the comparison-value operand. -/
def encodeCondInst (c : Condition) (keyOp valOp : Operand) : List Nat :=
  condOpByte c :: (encodeOperand keyOp ++ encodeOperand valOp)

/-- One condition instruction evaluated as spec section 4.3 and claim C1
describe it: materialize both operands (section 4.2), look the
materialized property key up in the device table; if absent, an Equal
condition evaluates to false and a NotEqual condition to true; if present,
compare the stored value to the decoded comparison value under the
condition. Materialization errors propagate. (A key operand that
materializes to a bool or enum value is outside this description — the
code panics there, see claim C6 — and the `panicked` branch is excluded by
the well-formedness hypothesis wherever this definition is used.) -/
def specEvalCond (st : SymbolTable) (props : DeviceProperties)
    (c : Condition) (keyOp valOp : Operand) : EvalResult Bool :=
  match decodeValue st keyOp.tag keyOp.value with
  | .error e => .err e
  | .ok keySym =>
    match propertyKeyOf keySym with
    | none => .panicked
    | some pk =>
      match decodeValue st valOp.tag valOp.value with
      | .error e => .err e
      | .ok bindValue =>
        match assocLookup props pk with
        | none => .ok (decide (c = .inequal))
        | some dv =>
          match compare_symbols c dv bindValue with
          | .error e => .err e
          | .ok res => .ok res

/-- A condition instruction's operand payloads are `u32`s, so their four
little-endian bytes decode back to the payload exactly. -/
def condInstWf (keyOp valOp : Operand) : Bool :=
  decide (keyOp.value < 2 ^ 32) && decide (valOp.value < 2 ^ 32)

/-! ## Bit-range algebra for the V1 record -/

theorem getBits_setBits_self (x lo w v : Nat) :
    getBits (setBits x lo w v) lo w = v % 2 ^ w := by
  have hpos : 0 < 2 ^ lo := pow_pos (by norm_num) lo
  unfold getBits setBits
  have hre : x % 2 ^ lo + 2 ^ (lo + w) * (x / 2 ^ (lo + w)) + 2 ^ lo * (v % 2 ^ w)
      = x % 2 ^ lo + 2 ^ lo * (2 ^ w * (x / 2 ^ (lo + w)) + v % 2 ^ w) := by
    rw [pow_add]; ring
  rw [hre, Nat.add_mul_div_left _ _ hpos, Nat.div_eq_of_lt (Nat.mod_lt x hpos),
    zero_add, Nat.mul_add_mod, Nat.mod_mod_of_dvd v dvd_rfl]

theorem getBits_setBits_high {x lo w v lo' w' : Nat} (h : lo + w ≤ lo') :
    getBits (setBits x lo w v) lo' w' = getBits x lo' w' := by
  have hposlw : 0 < 2 ^ (lo + w) := pow_pos (by norm_num) _
  have hlt1 : x % 2 ^ lo < 2 ^ lo := Nat.mod_lt x (pow_pos (by norm_num) _)
  have hlt2 : v % 2 ^ w < 2 ^ w := Nat.mod_lt v (pow_pos (by norm_num) _)
  have hr : x % 2 ^ lo + 2 ^ lo * (v % 2 ^ w) < 2 ^ (lo + w) := by
    calc x % 2 ^ lo + 2 ^ lo * (v % 2 ^ w)
        < 2 ^ lo + 2 ^ lo * (v % 2 ^ w) := by omega
      _ = 2 ^ lo * (v % 2 ^ w + 1) := by ring
      _ ≤ 2 ^ lo * 2 ^ w := Nat.mul_le_mul_left _ (by omega)
      _ = 2 ^ (lo + w) := (pow_add 2 lo w).symm
  unfold getBits setBits
  have hd : 2 ^ lo' = 2 ^ (lo + w) * 2 ^ (lo' - (lo + w)) := by
    rw [← pow_add]
    congr 1
    omega
  have hS : x % 2 ^ lo + 2 ^ (lo + w) * (x / 2 ^ (lo + w)) + 2 ^ lo * (v % 2 ^ w)
      = x % 2 ^ lo + 2 ^ lo * (v % 2 ^ w) + 2 ^ (lo + w) * (x / 2 ^ (lo + w)) := by
    ring
  rw [hS, hd, ← Nat.div_div_eq_div_mul, ← Nat.div_div_eq_div_mul,
    Nat.add_mul_div_left _ _ hposlw, Nat.div_eq_of_lt hr, zero_add]

theorem getBits_setBits_low {x lo w v lo' w' : Nat} (h : lo' + w' ≤ lo) :
    getBits (setBits x lo w v) lo' w' = getBits x lo' w' := by
  obtain ⟨e, he⟩ : 2 ^ (lo' + w') ∣ 2 ^ lo := pow_dvd_pow 2 h
  unfold getBits setBits
  rw [← Nat.mod_mul_right_div_self, ← Nat.mod_mul_right_div_self, ← pow_add]
  have hS : x % 2 ^ lo + 2 ^ (lo + w) * (x / 2 ^ (lo + w)) + 2 ^ lo * (v % 2 ^ w)
      = x % 2 ^ lo + 2 ^ (lo' + w') * (e * (2 ^ w * (x / 2 ^ (lo + w)) + v % 2 ^ w)) := by
    rw [pow_add, he]; ring
  rw [hS, Nat.add_mul_mod_self_left, Nat.mod_mod_of_dvd x ⟨e, he⟩]

/-! ## Field values of an encoded V1 record -/

namespace V1

theorem mkRaw_condition (c o a b v : Nat) :
    (mkRaw c o a b v).condition = c % 2 ^ 4 := by
  simp only [mkRaw, RawInstruction.condition, RawInstruction.set_condition,
    RawInstruction.set_operation, RawInstruction.set_parameter_a,
    RawInstruction.set_parameter_b, RawInstruction.set_value]
  rw [getBits_setBits_low (by norm_num : 28 + 4 ≤ 32),
    getBits_setBits_high (by norm_num : 0 + 16 ≤ 28),
    getBits_setBits_high (by norm_num : 16 + 8 ≤ 28),
    getBits_setBits_high (by norm_num : 24 + 4 ≤ 28),
    getBits_setBits_self]

theorem mkRaw_operation (c o a b v : Nat) :
    (mkRaw c o a b v).operation = o % 2 ^ 4 := by
  simp only [mkRaw, RawInstruction.operation, RawInstruction.set_condition,
    RawInstruction.set_operation, RawInstruction.set_parameter_a,
    RawInstruction.set_parameter_b, RawInstruction.set_value]
  rw [getBits_setBits_low (by norm_num : 24 + 4 ≤ 32),
    getBits_setBits_high (by norm_num : 0 + 16 ≤ 24),
    getBits_setBits_high (by norm_num : 16 + 8 ≤ 24),
    getBits_setBits_self]

theorem mkRaw_parameter_a (c o a b v : Nat) :
    (mkRaw c o a b v).parameter_a = a % 2 ^ 8 := by
  simp only [mkRaw, RawInstruction.parameter_a, RawInstruction.set_condition,
    RawInstruction.set_operation, RawInstruction.set_parameter_a,
    RawInstruction.set_parameter_b, RawInstruction.set_value]
  rw [getBits_setBits_low (by norm_num : 16 + 8 ≤ 32),
    getBits_setBits_high (by norm_num : 0 + 16 ≤ 16),
    getBits_setBits_self]

theorem mkRaw_parameter_b (c o a b v : Nat) :
    (mkRaw c o a b v).parameter_b = b % 2 ^ 16 := by
  simp only [mkRaw, RawInstruction.parameter_b, RawInstruction.set_condition,
    RawInstruction.set_operation, RawInstruction.set_parameter_a,
    RawInstruction.set_parameter_b, RawInstruction.set_value]
  rw [getBits_setBits_low (by norm_num : 0 + 16 ≤ 32),
    getBits_setBits_self]

theorem mkRaw_value (c o a b v : Nat) :
    (mkRaw c o a b v).value = v % 2 ^ 32 := by
  simp only [mkRaw, RawInstruction.value, RawInstruction.set_condition,
    RawInstruction.set_operation, RawInstruction.set_parameter_a,
    RawInstruction.set_parameter_b, RawInstruction.set_value]
  rw [getBits_setBits_self]

/-- The debug setters of `encode_instruction` live entirely in bits
[64, 96), so the instruction fields of the record are unchanged by them. -/
theorem encode_instruction_low_bits (info : InstructionInfo) (lo w : Nat)
    (h : lo + w ≤ 64) :
    getBits (encode_instruction info).bits lo w
      = getBits (instructionToRaw info.instruction).bits lo w := by
  simp only [encode_instruction, RawInstruction.set_line,
    RawInstruction.set_ast_location, RawInstruction.set_extra]
  rw [getBits_setBits_low (by omega : lo + w ≤ 64),
    getBits_setBits_low (by omega : lo + w ≤ 80),
    getBits_setBits_low (by omega : lo + w ≤ 88)]

end V1

/-! ## Evaluation of encoded V2 condition instructions -/

theorem RawValueType.fromU8_toU8 (t : RawValueType) :
    RawValueType.fromU8 t.toU8 = some t := by
  cases t <;> rfl

theorem next_u32_u32LE {v : Nat} (rest : List Nat) (h : v < 2 ^ 32) :
    next_u32 (u32LE v ++ rest) = .ok (v, rest) := by
  have hv : v % 256 + 0x100 * (v / 256 % 256) + 0x10000 * (v / 65536 % 256)
      + 0x1000000 * (v / 16777216 % 256) = v := by omega
  simp [u32LE, next_u32, hv]

theorem read_next_value_encoded (st : SymbolTable) (o : Operand)
    (tail : List Nat) (h : o.value < 2 ^ 32) :
    read_next_value st (encodeOperand o ++ tail) =
      match decodeValue st o.tag o.value with
      | .error e => .error e
      | .ok s => .ok (s, tail) := by
  unfold read_next_value encodeOperand
  simp only [List.cons_append]
  rw [show next_u8 (o.tag.toU8 :: (u32LE o.value ++ tail))
      = .ok (o.tag.toU8, u32LE o.value ++ tail) from rfl]
  simp only [RawValueType.fromU8_toU8, next_u32_u32LE _ h]

theorem read_and_evaluate_values_encoded (st : SymbolTable)
    (props : DeviceProperties) (c : Condition) (kOp : Operand)
    (tail : List Nat) (hk : kOp.value < 2 ^ 32) :
    read_and_evaluate_values st props c (encodeOperand kOp ++ tail) =
      match decodeValue st kOp.tag kOp.value with
      | .error e => .err e
      | .ok keySym =>
        match propertyKeyOf keySym with
        | none => .panicked
        | some pk =>
          match read_next_value st tail with
          | .error e => .err e
          | .ok (bind_value, iter') =>
            match assocLookup props pk with
            | none => .ok (decide (c = .inequal), iter')
            | some dv =>
              match compare_symbols c dv bind_value with
              | .error e => .err e
              | .ok res => .ok (res, iter') := by
  unfold read_and_evaluate_values
  rw [read_next_value_encoded st kOp tail hk]
  cases decodeValue st kOp.tag kOp.value <;> rfl

theorem match_bind_nil (st : SymbolTable) (props : DeviceProperties) :
    match_bind st props [] = .ok true := by
  unfold match_bind
  rfl

theorem match_bind_cond (st : SymbolTable) (props : DeviceProperties)
    (c : Condition) (tail : List Nat) :
    match_bind st props (condOpByte c :: tail) =
      match read_and_evaluate_values st props c tail with
      | .ok (true, iter') => match_bind st props iter'
      | .ok (false, _) => .ok false
      | .err e => .err e
      | .panicked => .panicked := by
  cases c
  · conv_lhs => unfold match_bind
    cases hr : read_and_evaluate_values st props Condition.equal tail with
    | ok p =>
        obtain ⟨b, iter'⟩ := p
        cases b <;> rfl
    | err e => rfl
    | panicked => rfl
  · conv_lhs => unfold match_bind
    cases hr : read_and_evaluate_values st props Condition.inequal tail with
    | ok p =>
        obtain ⟨b, iter'⟩ := p
        cases b <;> rfl
    | err e => rfl
    | panicked => rfl

theorem match_bind_uncond_abort (st : SymbolTable) (props : DeviceProperties)
    (tail : List Nat) : match_bind st props (0x30 :: tail) = .ok false := by
  unfold match_bind
  rfl

/-- Evaluating one whole encoded condition instruction at the head of the
stream: the engine continues with the rest of the stream exactly when the
condition is satisfied. -/
theorem match_bind_encCond (st : SymbolTable) (props : DeviceProperties)
    (c : Condition) (kOp vOp : Operand) (rest : List Nat)
    (hk : kOp.value < 2 ^ 32) (hv : vOp.value < 2 ^ 32) :
    match_bind st props (encodeCondInst c kOp vOp ++ rest) =
      match specEvalCond st props c kOp vOp with
      | .ok true => match_bind st props rest
      | .ok false => .ok false
      | .err e => .err e
      | .panicked => .panicked := by
  have hlist : encodeCondInst c kOp vOp ++ rest
      = condOpByte c :: (encodeOperand kOp ++ (encodeOperand vOp ++ rest)) := by
    simp [encodeCondInst]
  rw [hlist, match_bind_cond,
    read_and_evaluate_values_encoded st props c kOp _ hk]
  unfold specEvalCond
  cases decodeValue st kOp.tag kOp.value with
  | error e => rfl
  | ok keySym =>
    dsimp only
    cases propertyKeyOf keySym with
    | none => rfl
    | some pk =>
      dsimp only
      rw [read_next_value_encoded st vOp rest hv]
      cases decodeValue st vOp.tag vOp.value with
      | error e => rfl
      | ok bv =>
        dsimp only
        cases assocLookup props pk with
        | none => cases c <;> rfl
        | some dv =>
          dsimp only
          cases compare_symbols c dv bv with
          | error e => rfl
          | ok res => cases res <;> rfl

/-- The bit-range model of the V1 record agrees with the
`test_raw_instruction` and `test_complicated_value` unit tests of
encode_bind_program_v1.rs. -/
theorem raw_instruction_model_sanity :
    (((((V1.RawInstruction.mk 0).set_condition 1).set_operation
          2).set_parameter_a 3).set_parameter_b 4).bits
        = ((1 <<< 28) ||| (2 <<< 24) ||| (3 <<< 16) ||| 4)
  ∧ (V1.instructionToRaw (.abort .always)).bits = 0
  ∧ (V1.instructionToRaw (.matchInst .always)).word 0 = 1 <<< 24
  ∧ (V1.instructionToRaw (.label 0)).word 0 = 5 <<< 24
  ∧ (V1.instructionToRaw (.goto (.equal 23 1234) 42)).parameter_a = 42
  ∧ (V1.instructionToRaw (.goto (.equal 23 1234) 42)).parameter_b = 23
  ∧ (V1.instructionToRaw (.goto (.equal 23 1234) 42)).value = 1234 := by
  decide

/-- Helper for claim C3: on instructions whose payloads fit their bit
fields, reading the fields back recovers the instruction. -/
theorem v1_readback_of_wf (i : V1.Instruction) (h : V1.instrWf i = true) :
    V1.readBackInstruction (V1.instructionToRaw i) = some i := by
  cases i with
  | abort cond =>
      cases cond with
      | always =>
          simp [V1.instructionToRaw, V1.encode_condition, V1.RawCondition.toU32,
            V1.RawOp.toU32, V1.readBackInstruction, V1.readBackCondition,
            V1.mkRaw_operation, V1.mkRaw_condition, V1.mkRaw_parameter_a,
            V1.mkRaw_parameter_b, V1.mkRaw_value]
      | equal b v =>
          simp only [V1.instrWf, V1.condWf, Bool.and_eq_true,
            decide_eq_true_eq] at h
          simp [V1.instructionToRaw, V1.encode_condition, V1.RawCondition.toU32,
            V1.RawOp.toU32, V1.readBackInstruction, V1.readBackCondition,
            V1.mkRaw_operation, V1.mkRaw_condition, V1.mkRaw_parameter_b,
            V1.mkRaw_value, Nat.mod_eq_of_lt h.1, Nat.mod_eq_of_lt h.2]
          omega
      | notEqual b v =>
          simp only [V1.instrWf, V1.condWf, Bool.and_eq_true,
            decide_eq_true_eq] at h
          simp [V1.instructionToRaw, V1.encode_condition, V1.RawCondition.toU32,
            V1.RawOp.toU32, V1.readBackInstruction, V1.readBackCondition,
            V1.mkRaw_operation, V1.mkRaw_condition, V1.mkRaw_parameter_b,
            V1.mkRaw_value, Nat.mod_eq_of_lt h.1, Nat.mod_eq_of_lt h.2]
          omega
  | matchInst cond =>
      cases cond with
      | always =>
          simp [V1.instructionToRaw, V1.encode_condition, V1.RawCondition.toU32,
            V1.RawOp.toU32, V1.readBackInstruction, V1.readBackCondition,
            V1.mkRaw_operation, V1.mkRaw_condition, V1.mkRaw_parameter_a,
            V1.mkRaw_parameter_b, V1.mkRaw_value]
      | equal b v =>
          simp only [V1.instrWf, V1.condWf, Bool.and_eq_true,
            decide_eq_true_eq] at h
          simp [V1.instructionToRaw, V1.encode_condition, V1.RawCondition.toU32,
            V1.RawOp.toU32, V1.readBackInstruction, V1.readBackCondition,
            V1.mkRaw_operation, V1.mkRaw_condition, V1.mkRaw_parameter_b,
            V1.mkRaw_value, Nat.mod_eq_of_lt h.1, Nat.mod_eq_of_lt h.2]
          omega
      | notEqual b v =>
          simp only [V1.instrWf, V1.condWf, Bool.and_eq_true,
            decide_eq_true_eq] at h
          simp [V1.instructionToRaw, V1.encode_condition, V1.RawCondition.toU32,
            V1.RawOp.toU32, V1.readBackInstruction, V1.readBackCondition,
            V1.mkRaw_operation, V1.mkRaw_condition, V1.mkRaw_parameter_b,
            V1.mkRaw_value, Nat.mod_eq_of_lt h.1, Nat.mod_eq_of_lt h.2]
          omega
  | goto cond a =>
      cases cond with
      | always =>
          simp only [V1.instrWf, V1.condWf, Bool.and_eq_true,
            decide_eq_true_eq] at h
          simp [V1.instructionToRaw, V1.encode_condition, V1.RawCondition.toU32,
            V1.RawOp.toU32, V1.readBackInstruction, V1.readBackCondition,
            V1.mkRaw_operation, V1.mkRaw_condition, V1.mkRaw_parameter_a,
            V1.mkRaw_parameter_b, V1.mkRaw_value, Nat.mod_eq_of_lt h.2]
          omega
      | equal b v =>
          simp only [V1.instrWf, V1.condWf, Bool.and_eq_true,
            decide_eq_true_eq] at h
          simp [V1.instructionToRaw, V1.encode_condition, V1.RawCondition.toU32,
            V1.RawOp.toU32, V1.readBackInstruction, V1.readBackCondition,
            V1.mkRaw_operation, V1.mkRaw_condition, V1.mkRaw_parameter_a,
            V1.mkRaw_parameter_b, V1.mkRaw_value, Nat.mod_eq_of_lt h.1.1,
            Nat.mod_eq_of_lt h.1.2, Nat.mod_eq_of_lt h.2]
          omega
      | notEqual b v =>
          simp only [V1.instrWf, V1.condWf, Bool.and_eq_true,
            decide_eq_true_eq] at h
          simp [V1.instructionToRaw, V1.encode_condition, V1.RawCondition.toU32,
            V1.RawOp.toU32, V1.readBackInstruction, V1.readBackCondition,
            V1.mkRaw_operation, V1.mkRaw_condition, V1.mkRaw_parameter_a,
            V1.mkRaw_parameter_b, V1.mkRaw_value, Nat.mod_eq_of_lt h.1.1,
            Nat.mod_eq_of_lt h.1.2, Nat.mod_eq_of_lt h.2]
          omega
  | label a =>
      simp only [V1.instrWf, decide_eq_true_eq] at h
      simp [V1.instructionToRaw, V1.encode_condition, V1.RawCondition.toU32,
        V1.RawOp.toU32, V1.readBackInstruction, V1.readBackCondition,
        V1.mkRaw_operation, V1.mkRaw_condition, V1.mkRaw_parameter_a,
        V1.mkRaw_parameter_b, V1.mkRaw_value, Nat.mod_eq_of_lt h]
      omega

/-! ## The claims -/

/-- C1: for every V2 stream of condition instructions and every device
property table, `match_bind` evaluates the conditions left to right: a
condition whose one-step evaluation (per `specEvalCond`: an Equal condition
on an absent materialized key is false, a NotEqual condition on an absent
key is true, a present key compares the stored value to the decoded
comparison value) fails makes the whole program immediately return
`Ok(false)` whatever bytes follow; a satisfied condition continues with the
rest of the stream; and exhausting the stream with no failure and no abort
returns `Ok(true)` — in particular a stream of nothing but satisfied
conditions returns `Ok(true)`. -/
theorem c1_condition_semantics (st : SymbolTable) (props : DeviceProperties) :
    (match_bind st props [] = .ok true)
  ∧ (∀ (c : Condition) (kOp vOp : Operand) (rest : List Nat),
      condInstWf kOp vOp = true →
        (specEvalCond st props c kOp vOp = .ok false →
          match_bind st props (encodeCondInst c kOp vOp ++ rest) = .ok false)
      ∧ (specEvalCond st props c kOp vOp = .ok true →
          match_bind st props (encodeCondInst c kOp vOp ++ rest)
            = match_bind st props rest))
  ∧ (∀ l : List (Condition × Operand × Operand),
      (∀ x ∈ l, condInstWf x.2.1 x.2.2 = true) →
      (∀ x ∈ l, specEvalCond st props x.1 x.2.1 x.2.2 = .ok true) →
      match_bind st props
          (List.flatten (l.map fun x => encodeCondInst x.1 x.2.1 x.2.2))
        = .ok true) := by
  have hbounds : ∀ kOp vOp : Operand, condInstWf kOp vOp = true →
      kOp.value < 2 ^ 32 ∧ vOp.value < 2 ^ 32 := by
    intro kOp vOp hwf
    simpa [condInstWf] using hwf
  refine ⟨match_bind_nil st props, fun c kOp vOp rest hwf => ?_, fun l => ?_⟩
  · obtain ⟨hk, hv⟩ := hbounds kOp vOp hwf
    constructor
    · intro hfail
      rw [match_bind_encCond st props c kOp vOp rest hk hv, hfail]
    · intro hsat
      rw [match_bind_encCond st props c kOp vOp rest hk hv, hsat]
  · induction l with
    | nil =>
        intro _ _
        exact match_bind_nil st props
    | cons hd tl ih =>
        intro hwf hall
        obtain ⟨hk, hv⟩ := hbounds hd.2.1 hd.2.2 (hwf hd (by simp))
        simp only [List.map_cons, List.flatten_cons]
        rw [match_bind_encCond st props hd.1 hd.2.1 hd.2.2 _ hk hv,
          hall hd (by simp)]
        exact ih (fun x hx => hwf x (by simp [hx])) (fun x hx => hall x (by simp [hx]))

theorem c1_witness :
    match_bind [] []
        (encodeCondInst .equal ⟨.numberValue, 1⟩ ⟨.numberValue, 2⟩ ++ [0xFF])
      = .ok false :=
  ((c1_condition_semantics [] []).2.1 .equal ⟨.numberValue, 1⟩
      ⟨.numberValue, 2⟩ [0xFF] (by decide)).1 (by decide)

/-- C2 as written is false: the claim places the debug line number at bits
[64,72), the AST-location tag at [72,80) and the extra field at [80,96),
but encoding `Abort(Always)` with debug line 1, AST-location 2 and extra 3
puts other values at those positions (the extra field, not the line number,
occupies the low debug bits). -/
theorem c2_counterexample :
    ¬ (getBits (V1.encode_instruction
          ⟨.abort .always, ⟨1, 2, 3⟩⟩).bits 64 8 = 1
      ∧ getBits (V1.encode_instruction
          ⟨.abort .always, ⟨1, 2, 3⟩⟩).bits 72 8 = 2
      ∧ getBits (V1.encode_instruction
          ⟨.abort .always, ⟨1, 2, 3⟩⟩).bits 80 16 = 3) := by
  decide

/-- C2 (amended): the V1 record produced by `encode_instruction` carries
the debug line number in bits [88,96), the debug AST-location tag in bits
[80,88), and the 16-bit debug "extra" field in bits [64,80) of the 96-bit
little-endian record (each truncated to its field width). -/
theorem c2_debug_field_layout (info : V1.InstructionInfo) :
    getBits (V1.encode_instruction info).bits 88 8 = info.debug.line % 2 ^ 8
  ∧ getBits (V1.encode_instruction info).bits 80 8
      = info.debug.astLocation % 2 ^ 8
  ∧ getBits (V1.encode_instruction info).bits 64 16
      = info.debug.extra % 2 ^ 16 := by
  unfold V1.encode_instruction
  simp only [V1.RawInstruction.set_line, V1.RawInstruction.set_ast_location,
    V1.RawInstruction.set_extra]
  refine ⟨?_, ?_, ?_⟩
  · rw [getBits_setBits_high (by norm_num : 64 + 16 ≤ 88),
      getBits_setBits_high (by norm_num : 80 + 8 ≤ 88), getBits_setBits_self]
  · rw [getBits_setBits_high (by norm_num : 64 + 16 ≤ 80), getBits_setBits_self]
  · rw [getBits_setBits_self]

/-- C3 as written is false: operand A is an 8-bit field, so the Goto target
256 encodes identically to the Goto target 0 and cannot be read back; V1
encoding is not injective on all of `Instruction`. -/
theorem c3_counterexample :
    V1.instructionToRaw (.goto .always 256) = V1.instructionToRaw (.goto .always 0)
  ∧ V1.Instruction.goto .always 256 ≠ V1.Instruction.goto .always 0 := by
  decide

/-- C3 (amended): for every instruction whose Goto/Label target fits in the
8-bit operand-A field and whose condition key fits in the 16-bit operand-B
field (values are 32-bit, the full `u32` range), reading back the
condition-code, operation-code, operand-A, operand-B and Value fields of
the encoded V1 record recovers exactly the instruction, and the encoding is
injective on such instructions. -/
theorem c3_v1_field_roundtrip :
    (∀ i : V1.Instruction, V1.instrWf i = true →
        V1.readBackInstruction (V1.instructionToRaw i) = some i)
  ∧ (∀ i j : V1.Instruction, V1.instrWf i = true → V1.instrWf j = true →
        V1.instructionToRaw i = V1.instructionToRaw j → i = j) := by
  refine ⟨v1_readback_of_wf, fun i j hi hj heq => ?_⟩
  have h1 := v1_readback_of_wf i hi
  have h2 := v1_readback_of_wf j hj
  rw [heq] at h1
  exact Option.some.inj (h1.symm.trans h2)

theorem c3_witness :
    V1.readBackInstruction (V1.instructionToRaw (.goto (.equal 23 1234) 42))
      = some (.goto (.equal 23 1234) 42) :=
  c3_v1_field_roundtrip.1 (.goto (.equal 23 1234) 42) (by decide)

/-- C4: encoding `Goto(Equal(23, 1234), 42)` with the V1 codec yields first
32-bit word `(1<<28)|(2<<24)|(42<<16)|23` and second 32-bit word `1234`. -/
theorem c4_goto_equal_encoding :
    (V1.instructionToRaw (.goto (.equal 23 1234) 42)).word 0
        = ((1 <<< 28) ||| (2 <<< 24) ||| (42 <<< 16) ||| 23)
  ∧ (V1.instructionToRaw (.goto (.equal 23 1234) 42)).word 1 = 1234 := by
  decide

/-- C5: a `Key` operand whose index is present in the symbol table
materializes to a key-typed value carrying the resolved string with the
placeholder declared type `Str`; in the key position only the string is
used (the hint is discarded by the `PropertyKey` projection), and in the
comparison position `compare_symbols` gives the same verdict whatever
declared type the key value carries — so only the resolved string
participates in the comparison. -/
theorem c5_key_placeholder (st : SymbolTable) (idx : Nat) (s : String) :
    (assocLookup st idx = some s →
      decodeValue st RawValueType.key idx = .ok (Symbol.key s ValueType.str))
  ∧ (∀ (str : String) (vt : ValueType),
      propertyKeyOf (Symbol.key str vt) = some (PropertyKey.stringKey str))
  ∧ (∀ (c : Condition) (lhs : Symbol) (str : String) (vt vt' : ValueType),
      compare_symbols c lhs (Symbol.key str vt)
        = compare_symbols c lhs (Symbol.key str vt')) := by
  refine ⟨fun h => ?_, fun str vt => rfl, fun c lhs str vt vt' => ?_⟩
  · simp [decodeValue, lookup_symbol_table, h]
  · cases lhs <;> simp [compare_symbols, sameDiscriminant, symbolEq]

theorem c5_witness :
    decodeValue [(5, "abc")] RawValueType.key 5
      = .ok (Symbol.key "abc" ValueType.str) :=
  (c5_key_placeholder [(5, "abc")] 5 "abc").1 (by rfl)

/-- C6 as written is false: a condition whose property-key operand
materializes to a bool value does not surface an error to the caller — the
engine panics (`unimplemented!`), so evaluation is not total on such
streams: the concrete stream `[0x01, BoolValue 0, NumberValue 7]` ends in
the panic outcome and in no error outcome. -/
theorem c6_counterexample :
    (match_bind [] [] [0x01, 0x03, 0, 0, 0, 0, 0x01, 0x07, 0, 0, 0]).isPanic
        = true
  ∧ (match_bind [] [] [0x01, 0x03, 0, 0, 0, 0, 0x01, 0x07, 0, 0, 0]).isError
        = false := by
  have h1 : ([0x01, 0x03, 0, 0, 0, 0, 0x01, 0x07, 0, 0, 0] : List Nat)
      = condOpByte .equal :: (encodeOperand ⟨.boolValue, 0⟩
          ++ (encodeOperand ⟨.numberValue, 7⟩ ++ [])) := rfl
  rw [h1, match_bind_cond,
    read_and_evaluate_values_encoded _ _ _ _ _ (by norm_num)]
  exact ⟨rfl, rfl⟩

/-- C6 (amended): a condition instruction whose property-key operand
materializes to a type other than number, string, or key (for example
BoolValue or EnumValue) makes the engine panic (Rust `unimplemented!`)
before the comparison value is even read — no `BytecodeError` is returned
to the caller and evaluation is not total on such streams. -/
theorem c6_bool_enum_key_panics (st : SymbolTable) (props : DeviceProperties)
    (c : Condition) (kOp : Operand) (tail : List Nat) (ks : Symbol)
    (hk : kOp.value < 2 ^ 32)
    (hks : decodeValue st kOp.tag kOp.value = .ok ks)
    (hproj : propertyKeyOf ks = none) :
    match_bind st props (condOpByte c :: (encodeOperand kOp ++ tail))
      = .panicked := by
  rw [match_bind_cond, read_and_evaluate_values_encoded st props c kOp tail hk,
    hks]
  dsimp only
  rw [hproj]

theorem c6_witness :
    match_bind [] [] (condOpByte .equal :: (encodeOperand ⟨.boolValue, 1⟩ ++ []))
      = .panicked :=
  c6_bool_enum_key_panics [] [] .equal ⟨.boolValue, 1⟩ [] (.boolValue true)
    (by norm_num) (by rfl) (by rfl)

/-- C7: whenever a condition's materialized property key is present in the
device property table and the stored value's type tag differs from the
decoded comparison value's type tag, the match returns
`Err(MismatchValueTypes)` — never an ordinary true/false verdict. -/
theorem c7_mismatch_value_types (st : SymbolTable) (props : DeviceProperties)
    (c : Condition) (kOp vOp : Operand) (rest : List Nat) (ks : Symbol)
    (pk : PropertyKey) (bv dv : Symbol)
    (hk : kOp.value < 2 ^ 32) (hv : vOp.value < 2 ^ 32)
    (hks : decodeValue st kOp.tag kOp.value = .ok ks)
    (hproj : propertyKeyOf ks = some pk)
    (hbv : decodeValue st vOp.tag vOp.value = .ok bv)
    (hdev : assocLookup props pk = some dv)
    (hdisc : sameDiscriminant dv bv = false) :
    match_bind st props (encodeCondInst c kOp vOp ++ rest)
      = .err .mismatchValueTypes := by
  rw [match_bind_encCond st props c kOp vOp rest hk hv]
  unfold specEvalCond
  rw [hks]
  dsimp only
  rw [hproj]
  dsimp only
  rw [hbv]
  dsimp only
  rw [hdev]
  simp [compare_symbols, hdisc]

theorem c7_witness :
    match_bind [] [(PropertyKey.numberKey 1, Symbol.boolValue true)]
        (encodeCondInst .equal ⟨.numberValue, 1⟩ ⟨.numberValue, 5⟩ ++ [])
      = .err .mismatchValueTypes :=
  c7_mismatch_value_types [] [(PropertyKey.numberKey 1, Symbol.boolValue true)]
    .equal ⟨.numberValue, 1⟩ ⟨.numberValue, 5⟩ [] (.numberValue 1)
    (.numberKey 1) (.numberValue 5) (.boolValue true) (by norm_num)
    (by norm_num) (by rfl) (by rfl) (by rfl) (by rfl) (by rfl)

/-- C8: a `StringValue` or `Key` operand of a condition instruction whose
u32 index has no entry in the symbol table makes the match return
`Err(MissingEntryInSymbolTable(index))` with that exact index — both when
the bad operand is the property key and when it is the comparison value. -/
theorem c8_missing_symbol_entry (st : SymbolTable) (props : DeviceProperties)
    (c : Condition) (idx : Nat) (hidx : idx < 2 ^ 32)
    (hmiss : assocLookup st idx = none) :
    (∀ tag, tag = RawValueType.stringValue ∨ tag = RawValueType.key →
      ∀ tail : List Nat,
        match_bind st props (condOpByte c :: (encodeOperand ⟨tag, idx⟩ ++ tail))
          = .err (.missingEntryInSymbolTable idx))
  ∧ (∀ (kOp : Operand) (ks : Symbol) (pk : PropertyKey),
      kOp.value < 2 ^ 32 →
      decodeValue st kOp.tag kOp.value = .ok ks →
      propertyKeyOf ks = some pk →
      ∀ tag, tag = RawValueType.stringValue ∨ tag = RawValueType.key →
      ∀ rest : List Nat,
        match_bind st props (encodeCondInst c kOp ⟨tag, idx⟩ ++ rest)
          = .err (.missingEntryInSymbolTable idx)) := by
  constructor
  · intro tag htag tail
    rw [match_bind_cond,
      read_and_evaluate_values_encoded st props c ⟨tag, idx⟩ tail hidx]
    rcases htag with rfl | rfl <;>
      simp [decodeValue, lookup_symbol_table, hmiss]
  · intro kOp ks pk hk hks hproj tag htag rest
    rw [match_bind_encCond st props c kOp ⟨tag, idx⟩ rest hk hidx]
    unfold specEvalCond
    rw [hks]
    dsimp only
    rw [hproj]
    rcases htag with rfl | rfl <;>
      simp [decodeValue, lookup_symbol_table, hmiss]

theorem c8_witness :
    match_bind [] []
        (condOpByte .inequal :: (encodeOperand ⟨RawValueType.stringValue, 7⟩ ++ []))
      = .err (.missingEntryInSymbolTable 7) :=
  (c8_missing_symbol_entry [] [] .inequal 7 (by norm_num) (by rfl)).1
    RawValueType.stringValue (Or.inl rfl) []

/-- C9: for every symbol table and every device property table, matching an
instruction stream consisting of the single byte 0x30 (unconditional abort)
returns `Ok(false)`. -/
theorem c9_unconditional_abort (st : SymbolTable) (props : DeviceProperties) :
    match_bind st props [0x30] = .ok false :=
  match_bind_uncond_abort st props []

/-- C10: the property-key operand is decoded and projected, and then the
comparison-value operand is fully decoded, before the device property table
is consulted: a decode error in the comparison-value operand is returned
even when the property key is absent from the device table, where the
condition's absent-key outcome would otherwise have applied. -/
theorem c10_value_decoded_before_lookup (st : SymbolTable)
    (props : DeviceProperties) (c : Condition) (kOp : Operand)
    (tail : List Nat) (e : BytecodeError) (ks : Symbol) (pk : PropertyKey)
    (hk : kOp.value < 2 ^ 32)
    (hks : decodeValue st kOp.tag kOp.value = .ok ks)
    (hproj : propertyKeyOf ks = some pk)
    (habsent : assocLookup props pk = none)
    (herr : read_next_value st tail = .error e) :
    match_bind st props (condOpByte c :: (encodeOperand kOp ++ tail))
      = .err e := by
  rw [match_bind_cond, read_and_evaluate_values_encoded st props c kOp tail hk,
    hks]
  dsimp only
  rw [hproj]
  dsimp only
  rw [herr]

theorem c10_witness :
    match_bind [] []
        (condOpByte .equal :: (encodeOperand ⟨RawValueType.numberValue, 1⟩ ++ []))
      = .err .unexpectedEnd :=
  c10_value_decoded_before_lookup [] [] .equal ⟨RawValueType.numberValue, 1⟩
    [] .unexpectedEnd (.numberValue 1) (.numberKey 1) (by norm_num)
    (by rfl) (by rfl) (by rfl) (by rfl)

end DeviceBind
